import Mathlib

/-!
# Riftbound London Event Watcher — verification of the core pipeline

Shallow embedding of the normalization / reconciliation / novelty-tracking
pipeline of `riftbound_watcher.py` and `riftbound_watcher_fixed.py`:

* the Dark Sphere date resolver (`resolve_calendar_date`, both variants);
* the event record shape with its two derived identifiers;
* the per-adapter record construction (darksphere / shopify / zombie / europa);
* title canonicalization and slot-conflict deduplication;
* the persisted novelty ledger and the per-run novelty diff;
* the aggregator's time-window filter.

Conventions of the embedding:

* Python `datetime` values are modelled at second granularity as a wall-clock
  count of seconds (`DateTime.wall : Int`, seconds since the proleptic
  Gregorian epoch in the fixed Europe/London civil timezone) together with an
  `aware : Bool` flag mirroring the presence of `tzinfo`.  Ordering of aware
  datetimes is monotone in London wall-clock time (up to the DST fold, which
  no claim here depends on), so comparisons are modelled on `wall`.
* Python `date` construction raising `ValueError` is modelled by the
  decidable validity predicate `dateValid` (Python's `datetime.date` accepts
  years 1..9999, months 1..12, and days 1..month length).
* `calendar.monthrange` raising (`IllegalMonthError`, or `ValueError` for a
  year outside 1..9999) is modelled by `Except`; the original
  `resolve_calendar_date` does not catch these, so it returns
  `Except Unit (Option Date)`.
* SHA-1 digests are modelled by their (injective) pre-images: the exact
  `"{store}|{title}|{iso}"` strings that the source hashes.
-/

set_option autoImplicit false

namespace Riftbound

/-! ## Calendar arithmetic (Python `calendar` / `datetime.date`) -/

/-- Gregorian leap-year rule, as in Python's `calendar.isleap`. -/
def isLeapYear (y : Nat) : Bool :=
  y % 4 == 0 && (y % 100 != 0 || y % 400 == 0)

/-- Number of days in a month, as in `calendar.monthrange(y, m)[1]`
(`calendar.mdays` plus the February leap adjustment). -/
def monthLength (y m : Nat) : Nat :=
  if m = 2 then (if isLeapYear y then 29 else 28)
  else if m = 4 ∨ m = 6 ∨ m = 9 ∨ m = 11 then 30
  else 31

/-- A Python `datetime.date` value (already validated on construction). -/
structure Date where
  year : Nat
  month : Nat
  day : Nat
deriving DecidableEq, Repr

/-- Python's `datetime.date(y, m, d)` constructor succeeds exactly on these
inputs (`MINYEAR = 1`, `MAXYEAR = 9999`); otherwise it raises `ValueError`. -/
def dateValid (y m d : Nat) : Bool :=
  decide (1 ≤ y) && decide (y ≤ 9999) &&
  decide (1 ≤ m) && decide (m ≤ 12) &&
  decide (1 ≤ d) && decide (d ≤ monthLength y m)

/-- `calendar.monthrange(y, m)` raises `IllegalMonthError` for a month
outside 1..12 and `ValueError` (via `datetime.date(y, m, 1)`) for a year
outside 1..9999; on these inputs it succeeds, reporting `monthLength`. -/
def monthrangeOk (y m : Nat) : Prop :=
  (1 ≤ m ∧ m ≤ 12) ∧ (1 ≤ y ∧ y ≤ 9999)

instance (y m : Nat) : Decidable (monthrangeOk y m) := by
  unfold monthrangeOk; exact inferInstance

/-- The month-rollover step shared by both resolver variants:
`(year + 1, 1)` when the month was December, else `(year, month + 1)`. -/
def nextMonth (y m : Nat) : Nat × Nat :=
  if m = 12 then (y + 1, 1) else (y, m + 1)

/-- ASCII lower-casing of one character, as Python `str.lower` acts on the
ASCII range (all inputs relevant here are ASCII). -/
def lowerChar (c : Char) : Char :=
  if 'A' ≤ c ∧ c ≤ 'Z' then Char.ofNat (c.toNat + 32) else c

/-- ASCII lower-casing of a string. -/
def lowerStr (s : String) : String :=
  String.mk (s.data.map lowerChar)

/-- `dateutil.parser.parse(month_name).month` restricted to the inputs this
program feeds it: an English month name (matched case-insensitively, as
dateutil does).  Any other string makes dateutil raise, modelled as `none`. -/
def monthFromName (s : String) : Option Nat :=
  let t := lowerStr s
  if t = "january" then some 1
  else if t = "february" then some 2
  else if t = "march" then some 3
  else if t = "april" then some 4
  else if t = "may" then some 5
  else if t = "june" then some 6
  else if t = "july" then some 7
  else if t = "august" then some 8
  else if t = "september" then some 9
  else if t = "october" then some 10
  else if t = "november" then some 11
  else if t = "december" then some 12
  else none

/-- The month number both resolvers work with: the parsed month name, with
the `except Exception: month = 1` fallback of the source. -/
def parsedMonth (s : String) : Nat :=
  (monthFromName s).getD 1

/-- `resolve_calendar_date` of `riftbound_watcher.py` (lines 98-107): looks
up the month length via `calendar.monthrange` — a call *outside* the `try`,
so it can raise, modelled as the `.error` outcome — bounds-checks the day,
and on failure retries the same day number in the next month (whose
`monthrange` call can raise as well). -/
def resolve_calendar_date (name : String) (y d : Nat) :
    Except Unit (Option Date) :=
  if ¬ monthrangeOk y (parsedMonth name) then .error ()
  else if 1 ≤ d ∧ d ≤ monthLength y (parsedMonth name) then
    .ok (some ⟨y, parsedMonth name, d⟩)
  else if ¬ monthrangeOk (nextMonth y (parsedMonth name)).1
      (nextMonth y (parsedMonth name)).2 then .error ()
  else if 1 ≤ d ∧ d ≤ monthLength (nextMonth y (parsedMonth name)).1
      (nextMonth y (parsedMonth name)).2 then
    .ok (some ⟨(nextMonth y (parsedMonth name)).1,
      (nextMonth y (parsedMonth name)).2, d⟩)
  else .ok none

/-- `resolve_calendar_date` of `riftbound_watcher_fixed.py` (lines 162-186):
attempts `date(year, month, day)` directly, catching `ValueError`; on failure
rolls over to the next month and tries again; `None` if both fail. -/
def resolve_calendar_date_fixed (name : String) (y d : Nat) : Option Date :=
  if dateValid y (parsedMonth name) d then some ⟨y, parsedMonth name, d⟩
  else if dateValid (nextMonth y (parsedMonth name)).1
      (nextMonth y (parsedMonth name)).2 d then
    some ⟨(nextMonth y (parsedMonth name)).1,
      (nextMonth y (parsedMonth name)).2, d⟩
  else none

/-! ## Datetimes (Python `datetime.datetime` with `pytz` Europe/London) -/

/-- Proleptic-Gregorian day number of a date (days since 0001-01-01 is
`ordinal - 1`); used only to place a date on the global second axis. -/
def Date.ordinal (dt : Date) : Nat :=
  let p := dt.year - 1
  let leaps := p / 4 + p / 400 - p / 100
  let before :=
    if dt.month = 1 then 0 else if dt.month = 2 then 31
    else if dt.month = 3 then 59 else if dt.month = 4 then 90
    else if dt.month = 5 then 120 else if dt.month = 6 then 151
    else if dt.month = 7 then 181 else if dt.month = 8 then 212
    else if dt.month = 9 then 243 else if dt.month = 10 then 273
    else if dt.month = 11 then 304 else 334
  let leapDay := if 2 < dt.month ∧ isLeapYear dt.year then 1 else 0
  365 * p + leaps + before + leapDay + dt.day

/-- A Python `datetime` at second granularity: `wall` counts seconds of
London civil (wall-clock) time since the epoch of `Date.ordinal`, and
`aware` mirrors whether `tzinfo` is attached.  Aware-datetime ordering is
modelled by `wall` (see the header note on the DST fold). -/
structure DateTime where
  wall : Int
  aware : Bool
deriving DecidableEq, Repr

/-- `dt.replace(second=0, microsecond=0)`: floor to the minute. -/
def roundMinute (dt : DateTime) : DateTime :=
  ⟨dt.wall - dt.wall % 60, dt.aware⟩

/-- The naive datetime `dtparse.parse(f"{d.isoformat()} {HH:MM}")`, with the
time of day given in minutes. -/
def datetimeAt (d : Date) (minuteOfDay : Nat) : DateTime :=
  ⟨((d.ordinal * 1440 + minuteOfDay : Nat) : Int) * 60, false⟩

/-- `londonify`: localize a naive datetime to Europe/London, or convert an
aware one (every aware datetime in this program already carries the London
zone, so conversion leaves the wall clock unchanged). -/
def londonify (dt : DateTime) : DateTime :=
  if dt.aware then dt else ⟨dt.wall, true⟩

/-- `guess_end(start, hours)`: `start + timedelta(hours=hours)` (pytz
arithmetic adds to the wall clock). -/
def guess_end (start : DateTime) (hours : Nat) : DateTime :=
  ⟨start.wall + hours * 3600, start.aware⟩

/-! ## Event records and derived identifiers -/

/-- The `RBEvent` dataclass.  The source's `end` field is called `endTime`
here (`end` is a Lean keyword). -/
structure RBEvent where
  title : String
  start : DateTime
  endTime : Option DateTime
  url : String
  store : String
  location : Option String := none
deriving DecidableEq, Repr

/-- A stand-in for `.isoformat()` on a (minute-rounded) datetime: any
injective rendering serves, since the digest input only needs to be
determined by the datetime. -/
def dtIso (dt : DateTime) : String :=
  toString dt.wall ++ (if dt.aware then "+tz" else "")

/-- `RBEvent.uid`: the title-sensitive content id.  The source hashes
`f"{store}|{title}|{iso}"` with SHA-1; the digest is modelled by its
pre-image (SHA-1 is treated as injective). -/
def RBEvent.uid (e : RBEvent) : String :=
  e.store ++ "|" ++ e.title ++ "|" ++ dtIso (roundMinute e.start)

/-- `RBEvent.stable_id`: the title-agnostic slot id,
`hash(store + "|" + iso)` modelled by its pre-image. -/
def RBEvent.stable_id (e : RBEvent) : String :=
  e.store ++ "|" ++ dtIso (roundMinute e.start)

/-! ## Adapter record construction

Each function below is the record-construction tail of one adapter, taking
the fields the surrounding scraping loop has already extracted (title, URL,
resolved event date, and optional start/end times as minutes of the day).
Screen-scraping itself (HTTP, DOM traversal, regexes over page text) stays
outside the model; the claims under verification are about the records the
adapters build from the extracted pieces. -/

/-- `scrape_darksphere`, lines 173-180: default start 19:00; explicit end
time (when `parse_time_range` found one) is placed on the same date as the
start, else `guess_end(start, 4)`. -/
def darksphere_record (title url : String) (d : Date)
    (startT endT : Option Nat) : RBEvent :=
  let startMin := startT.getD (19 * 60)
  let startDt := londonify (datetimeAt d startMin)
  let endDt := match endT with
    | some e2 => londonify (datetimeAt d e2)
    | none => guess_end startDt 4
  { title := title, start := startDt, endTime := some endDt, url := url
    store := "Dark Sphere (Shepherd's Bush)"
    location := some "Shepherd's Bush Megastore, London" }

/-- `_scrape_shopify_products`, lines 207-219: start and end default to
19:00 and 23:00, each overridden independently when the detail page yields a
time range; both are placed on the extracted date. -/
def shopify_record (title url store : String) (d : Date)
    (startT endT : Option Nat) : RBEvent :=
  let startDt := londonify (datetimeAt d (startT.getD (19 * 60)))
  let endDt := londonify (datetimeAt d (endT.getD (23 * 60)))
  { title := title, start := startDt, endTime := some endDt, url := url
    store := store, location := some store }

/-- `scrape_zombie`, lines 270-275: default start 18:30; `_extract_dt_from_text`
never produces an end time (its third component is literally `None`), so the
end is always `guess_end(start, 3)`. -/
def zombie_record (title url : String) (d : Date) (startT : Option Nat) :
    RBEvent :=
  let startDt := londonify (datetimeAt d (startT.getD (18 * 60 + 30)))
  { title := title, start := startDt, endTime := some (guess_end startDt 3)
    url := url, store := "Zombie Games Café (Cricklewood)"
    location := some "Zombie Games Café, London" }

/-- `scrape_europa`, lines 309-312: default start 13:00; explicit end time on
the same date, else `guess_end(start, 4)`. -/
def europa_record (title url : String) (d : Date)
    (startT endT : Option Nat) : RBEvent :=
  let startDt := londonify (datetimeAt d (startT.getD (13 * 60)))
  let endDt := match endT with
    | some e2 => londonify (datetimeAt d e2)
    | none => guess_end startDt 4
  { title := title, start := startDt, endTime := some endDt, url := url
    store := "Europa Gaming (Wembley)"
    location := some "Europa Gaming, Wembley" }

/-- The `end >= start` invariant of the spec's data model, as a decidable
check on one record (trivially true when `end` is absent). -/
def endGeStart (e : RBEvent) : Bool :=
  match e.endTime with
  | none => true
  | some d => decide (e.start.wall ≤ d.wall)

/-! ## Title canonicalization (`_canonical_title`) -/

/-- Characters rewritten by the regex `[-–:]+` in `_canonical_title`. -/
def isDashLike (c : Char) : Bool :=
  c = '-' || c = '–' || c = ':'

/-- Python regex `\s` over `str` (the ASCII whitespace class; the titles in
play contain no exotic Unicode spaces). -/
def isSpaceChar (c : Char) : Bool :=
  c = ' ' || c = '\t' || c = '\n' || c = '\x0d' || c = '\x0b' || c = '\x0c'

/-- `re.sub` of a character-class-run pattern by a single replacement
character: each maximal run of `p`-characters becomes one `repl`.
`prevRun` records whether the previous character belonged to a run. -/
def squashRuns (p : Char → Bool) (repl : Char) : Bool → List Char → List Char
  | _, [] => []
  | prevRun, c :: cs =>
    if p c then
      (if prevRun then [] else [repl]) ++ squashRuns p repl true cs
    else c :: squashRuns p repl false cs

/-- Does `l` start with `pat`? -/
def startsWithChars : List Char → List Char → Bool
  | _, [] => true
  | [], _ :: _ => false
  | a :: as, b :: bs => a == b && startsWithChars as bs

/-- One step of Python `str.replace`, fuelled by the remaining length
(adequate fuel: each step consumes at least one character when `pat` is
nonempty, as it is at the single call site). -/
def replaceAllAux (pat sub : List Char) : Nat → List Char → List Char
  | 0, l => l
  | _ + 1, [] => []
  | fuel + 1, c :: cs =>
    if startsWithChars (c :: cs) pat then
      sub ++ replaceAllAux pat sub fuel (List.drop pat.length (c :: cs))
    else c :: replaceAllAux pat sub fuel cs

/-- Python `str.replace(pat, sub)`: leftmost, non-overlapping, all
occurrences. -/
def replaceAllChars (pat sub l : List Char) : List Char :=
  replaceAllAux pat sub l.length l

/-- Python `str.strip()` after whitespace collapsing. -/
def stripChars (l : List Char) : List Char :=
  ((l.dropWhile isSpaceChar).reverse.dropWhile isSpaceChar).reverse

/-- `_canonical_title` (lines 316-321 / 523-529): lower-case, collapse
hyphen/en-dash/colon runs to one space, unify `"nexus nights"` to
`"nexus night"`, collapse whitespace runs, strip. -/
def canonical_title (title : String) : String :=
  let l1 := title.data.map lowerChar
  let l2 := squashRuns isDashLike ' ' false l1
  let l3 := replaceAllChars "nexus nights".data "nexus night".data l2
  let l4 := squashRuns isSpaceChar ' ' false l3
  String.mk (stripChars l4)

/-- Python's substring test `needle in hay`. -/
def strContainsSub (hay needle : String) : Bool :=
  go hay.data
where
  go : List Char → Bool
  | [] => startsWithChars [] needle.data
  | c :: cs => startsWithChars (c :: cs) needle.data || go cs

/-- The `"riftbound" in _canonical_title(ev.title)` test of the
deduplicator. -/
def titleHasKeyword (e : RBEvent) : Bool :=
  strContainsSub (canonical_title e.title) "riftbound"

/-! ## Slot-conflict deduplication -/

/-- The preference score of `_prefer_event`: `(has "event.php" in URL,
title length)`. -/
def eventScore (e : RBEvent) : Nat × Nat :=
  (if strContainsSub e.url "event.php" then 1 else 0, e.title.length)

/-- Python's lexicographic `>=` on the score pairs. -/
def pairGe (p q : Nat × Nat) : Bool :=
  decide (q.1 < p.1) || (decide (p.1 = q.1) && decide (q.2 ≤ p.2))

/-- `_prefer_event`: keep `a` (the earlier-seen record) unless `b` scores
strictly higher. -/
def prefer_event (a b : RBEvent) : RBEvent :=
  if pairGe (eventScore a) (eventScore b) then a else b

/-- Keys of the deduplicator's dict: the Python tuples
`(store, start-minute)` and `(store, start-minute, canonical-title)`
(tuples of different length are never equal, hence two constructors). -/
inductive DKey where
  | slot (store : String) (minute : DateTime)
  | titled (store : String) (minute : DateTime) (ctitle : String)
deriving DecidableEq, Repr

/-- Dict lookup (`by_key.get`). -/
def alistGet (k : DKey) : List (DKey × RBEvent) → Option RBEvent
  | [] => none
  | (k2, v) :: rest => if k2 = k then some v else alistGet k rest

/-- Dict store (`by_key[k] = v`): Python dicts keep the original position of
an updated key and append new keys. -/
def alistSet (k : DKey) (v : RBEvent) :
    List (DKey × RBEvent) → List (DKey × RBEvent)
  | [] => [(k, v)]
  | (k2, v2) :: rest =>
    if k2 = k then (k, v) :: rest else (k2, v2) :: alistSet k v rest

/-- Loop body of `_dedup_slot_conflicts` (lines 328-339 / 552-565) for one
candidate `ev` against the accumulated dict. -/
def dedupStep (acc : List (DKey × RBEvent)) (ev : RBEvent) :
    List (DKey × RBEvent) :=
  let key := DKey.slot ev.store (roundMinute ev.start)
  match alistGet key acc with
  | none => alistSet key ev acc
  | some existing =>
    if titleHasKeyword ev && titleHasKeyword existing then
      alistSet key (prefer_event existing ev) acc
    else
      let altKey := DKey.titled ev.store (roundMinute ev.start)
        (canonical_title ev.title)
      match alistGet altKey acc with
      | none => alistSet altKey ev acc
      | some cur => alistSet altKey (prefer_event cur ev) acc

/-- `_dedup_slot_conflicts`: fold the candidates in discovery order, then
take the dict's values in insertion order. -/
def dedup_slot_conflicts (events : List RBEvent) : List RBEvent :=
  (events.foldl dedupStep []).map Prod.snd

/-! ## Persisted ledger (`load_state`) -/

/-- JSON values, as `json.load` produces them. -/
inductive Json where
  | null
  | jbool (b : Bool)
  | jnum (n : Int)
  | jstr (s : String)
  | jarr (elems : List Json)
  | jobj (fields : List (String × Json))

/-- What the state file can hold: absent, present but not valid JSON, or
present and parsed. -/
inductive FileState where
  | missing
  | unparseable
  | parsed (j : Json)

/-- Python `set()` accepts only hashable elements; `set(raw)` on a list
containing a JSON array or object raises `TypeError`. -/
def jsonHashable : Json → Bool
  | .jarr _ => false
  | .jobj _ => false
  | _ => true

/-- `load_state` (lines 83-88 / 130-137): a missing file yields the empty
set; `json.load` is *not* wrapped in `try`, so an unparseable file raises
(`.error`); a parsed non-list yields the empty set; a parsed list is turned
into a set (raising if an element is unhashable).  The returned set is
modelled as a list up to membership. -/
def load_state : FileState → Except Unit (List Json)
  | .missing => .ok []
  | .unparseable => .error ()
  | .parsed (.jarr xs) => if xs.all jsonHashable then .ok xs else .error ()
  | .parsed _ => .ok []

/-! ## Novelty diff (`run_once`, novelty and recording core) -/

/-- The ledger as held in memory: a set of id strings, modelled as a list up
to membership. -/
abbrev Ledger := List String

/-- The novelty test of `run_once` (lines 396 / 661): an event is new iff
neither its content id (`uid`) nor its slot id (`stable_id`) is in the
ledger. -/
def isNew (seen : Ledger) (e : RBEvent) : Bool :=
  !(decide (e.uid ∈ seen) || decide (e.stable_id ∈ seen))

/-- The recording loop of `run_once` (lines 399-402 / 664-670): surfacing an
event inserts both of its ids into the ledger.  (The source iterates the new
events sorted by start time; insertion order is immaterial for a set.) -/
def recordIds (seen : Ledger) (evs : List RBEvent) : Ledger :=
  seen ++ evs.flatMap (fun e => [e.uid, e.stable_id])

/-- One run of the novelty diff against a fixed event universe: the events
reported new, and the ledger as persisted at the end of the run
(`save_state` / `load_state` round-trip a set unchanged up to membership,
so persistence is the identity here). -/
def runNovelty (seen : Ledger) (events : List RBEvent) :
    List RBEvent × Ledger :=
  let newEvents := events.filter (fun e => isNew seen e)
  (newEvents, recordIds seen newEvents)

/-! ## Aggregator (`find_events`) -/

/-- `find_events` (lines 370-387 / 614-648) with the six scraper calls
replaced by the records they produced (`scraped`): filter to
`start >= now - timedelta(days=1)`, then deduplicate. -/
def find_events (now : DateTime) (scraped : List RBEvent) : List RBEvent :=
  dedup_slot_conflicts
    (scraped.filter (fun e => decide (now.wall - 86400 ≤ e.start.wall)))

/-! ## Concrete records used by witnesses -/

/-- A Dark Sphere calendar candidate: 19:00 on 7 November 2025. -/
def wEventA : RBEvent :=
  darksphere_record "Riftbound Nexus Night"
    "https://www.darksphere.co.uk/event.php?id=11" ⟨2025, 11, 7⟩
    (some (19 * 60)) none

/-- The same store and start minute with a rewritten title. -/
def wEventB : RBEvent :=
  darksphere_record "Riftbound League"
    "https://www.darksphere.co.uk/e2" ⟨2025, 11, 7⟩ (some (19 * 60)) none

/-- The same store and start minute with a non-Riftbound title. -/
def wEventC : RBEvent :=
  darksphere_record "Magic Draft Night"
    "https://www.darksphere.co.uk/e3" ⟨2025, 11, 7⟩ (some (19 * 60)) none

/-- A run time in the window of the records above. -/
def wNow : DateTime :=
  ⟨wEventA.start.wall, true⟩

/-- The spec's own dedup example: title "Riftbound Night"... -/
def wEventD : RBEvent :=
  darksphere_record "Riftbound Night"
    "https://www.darksphere.co.uk/e4" ⟨2025, 11, 7⟩ (some (19 * 60)) none

/-- ... and its case/space variant "riftbound   night" at the same slot. -/
def wEventE : RBEvent :=
  darksphere_record "riftbound   night"
    "https://www.darksphere.co.uk/e5" ⟨2025, 11, 7⟩ (some (19 * 60)) none

/-! ## Helper lemmas -/

set_option maxHeartbeats 1600000 in
lemma parsedMonth_bounds (s : String) :
    1 ≤ parsedMonth s ∧ parsedMonth s ≤ 12 := by
  unfold parsedMonth monthFromName
  simp only []
  repeat' split
  all_goals decide

lemma nextMonth_bounds (y m : Nat) (hm1 : 1 ≤ m) (hm2 : m ≤ 12) :
    y ≤ (nextMonth y m).1 ∧ (nextMonth y m).1 ≤ y + 1 ∧
    1 ≤ (nextMonth y m).2 ∧ (nextMonth y m).2 ≤ 12 := by
  unfold nextMonth
  split
  · simp
  · simp
    omega

lemma dateValid_iff (y m d : Nat) (hy : 1 ≤ y ∧ y ≤ 9999)
    (hm : 1 ≤ m ∧ m ≤ 12) :
    dateValid y m d = true ↔ (1 ≤ d ∧ d ≤ monthLength y m) := by
  simp only [dateValid, Bool.and_eq_true, decide_eq_true_eq]
  omega

lemma dateValid_false_of_over (y m d : Nat) (h : monthLength y m < d) :
    dateValid y m d = false := by
  simp only [dateValid, Bool.and_eq_true, decide_eq_true_eq,
    Bool.and_eq_false_iff, decide_eq_false_iff_not]
  omega

lemma prefer_event_mem (a b : RBEvent) :
    prefer_event a b = a ∨ prefer_event a b = b := by
  unfold prefer_event
  split
  · exact .inl rfl
  · exact .inr rfl

lemma alistGet_mem (k : DKey) (acc : List (DKey × RBEvent)) (v : RBEvent)
    (h : alistGet k acc = some v) : ∃ k2, (k2, v) ∈ acc := by
  induction acc with
  | nil => simp [alistGet] at h
  | cons kv rest ih =>
    obtain ⟨k2, v2⟩ := kv
    rw [alistGet] at h
    split at h
    · injection h with h2
      exact ⟨k2, by rw [← h2]; exact List.mem_cons_self _ _⟩
    · obtain ⟨k3, hk3⟩ := ih h
      exact ⟨k3, List.mem_cons_of_mem _ hk3⟩

lemma alistSet_mem (k : DKey) (v : RBEvent) (acc : List (DKey × RBEvent)) :
    ∀ kv ∈ alistSet k v acc, kv = (k, v) ∨ kv ∈ acc := by
  induction acc with
  | nil =>
    intro kv hkv
    simp [alistSet] at hkv
    exact .inl hkv
  | cons kv2 rest ih =>
    obtain ⟨k2, v2⟩ := kv2
    intro kv hkv
    rw [alistSet] at hkv
    split at hkv
    · rcases List.mem_cons.mp hkv with h | h
      · exact .inl h
      · exact .inr (List.mem_cons_of_mem _ h)
    · rcases List.mem_cons.mp hkv with h | h
      · exact .inr (by simp [h])
      · rcases ih kv h with h2 | h2
        · exact .inl h2
        · exact .inr (List.mem_cons_of_mem _ h2)

lemma dedupStep_preserves (P : RBEvent → Prop) (acc : List (DKey × RBEvent))
    (ev : RBEvent) (hacc : ∀ kv ∈ acc, P kv.2) (hev : P ev) :
    ∀ kv ∈ dedupStep acc ev, P kv.2 := by
  intro kv hkv
  simp only [dedupStep] at hkv
  split at hkv
  · rcases alistSet_mem _ _ _ kv hkv with h | h
    · rw [h]; exact hev
    · exact hacc kv h
  case _ existing hget =>
    split at hkv
    · rcases alistSet_mem _ _ _ kv hkv with h | h
      · rw [h]
        rcases prefer_event_mem existing ev with hp | hp
        · show P (prefer_event existing ev)
          rw [hp]
          obtain ⟨k2, hk2⟩ := alistGet_mem _ _ _ hget
          exact hacc _ hk2
        · show P (prefer_event existing ev)
          rw [hp]; exact hev
      · exact hacc kv h
    · split at hkv
      · rcases alistSet_mem _ _ _ kv hkv with h | h
        · rw [h]; exact hev
        · exact hacc kv h
      case _ cur hget2 =>
        rcases alistSet_mem _ _ _ kv hkv with h | h
        · rw [h]
          rcases prefer_event_mem cur ev with hp | hp
          · show P (prefer_event cur ev)
            rw [hp]
            obtain ⟨k2, hk2⟩ := alistGet_mem _ _ _ hget2
            exact hacc _ hk2
          · show P (prefer_event cur ev)
            rw [hp]; exact hev
        · exact hacc kv h

lemma foldl_dedup_preserves (P : RBEvent → Prop) :
    ∀ (l : List RBEvent) (acc : List (DKey × RBEvent)),
      (∀ e ∈ l, P e) → (∀ kv ∈ acc, P kv.2) →
      ∀ kv ∈ l.foldl dedupStep acc, P kv.2 := by
  intro l
  induction l with
  | nil =>
    intro acc _ hacc kv hkv
    rw [List.foldl_nil] at hkv
    exact hacc kv hkv
  | cons x xs ih =>
    intro acc hl hacc kv hkv
    rw [List.foldl_cons] at hkv
    exact ih (dedupStep acc x)
      (fun e he => hl e (List.mem_cons_of_mem _ he))
      (dedupStep_preserves P acc x hacc (hl x (List.mem_cons_self _ _)))
      kv hkv

lemma dedup_preserves (P : RBEvent → Prop) (l : List RBEvent)
    (h : ∀ e ∈ l, P e) : ∀ e ∈ dedup_slot_conflicts l, P e := by
  intro e he
  simp only [dedup_slot_conflicts, List.mem_map] at he
  obtain ⟨kv, hkv, rfl⟩ := he
  exact foldl_dedup_preserves P l [] h (by simp) kv hkv

/-! ## Claims -/

/-- **C1, counterexample.**  The claim says the excess day rolls into the
next month as that month's *corresponding early day* (April 31 → May 1,
February 30 → March 2).  Both resolvers in fact retry the *same day number*
in the next month: April 31 → May 31 and February 30 → March 30, so the
claimed values are wrong. -/
theorem c1_resolver_rolls_excess_cex :
    resolve_calendar_date "April" 2024 31 = .ok (some ⟨2024, 5, 31⟩) ∧
    resolve_calendar_date_fixed "April" 2024 31 = some ⟨2024, 5, 31⟩ ∧
    resolve_calendar_date_fixed "February" 2023 30 = some ⟨2023, 3, 30⟩ ∧
    (some (⟨2024, 5, 31⟩ : Date) ≠ some ⟨2024, 5, 1⟩) ∧
    (some (⟨2023, 3, 30⟩ : Date) ≠ some ⟨2023, 3, 2⟩) :=
  ⟨rfl, by decide, by decide, by decide, by decide⟩

/-- **C1, amended.**  When the given day exceeds the month's length, the
resolver retries the *same* day number in the next month (with December
rolling the year forward), succeeding when that day is valid there; in
particular April 31, 2024 resolves to May 31, 2024 and February 30, 2023 to
March 30, 2023. -/
theorem c1_resolver_rollover (name : String) (y d : Nat)
    (hover : monthLength y (parsedMonth name) < d)
    (hnext : dateValid (nextMonth y (parsedMonth name)).1
      (nextMonth y (parsedMonth name)).2 d = true) :
    resolve_calendar_date_fixed name y d =
      some ⟨(nextMonth y (parsedMonth name)).1,
        (nextMonth y (parsedMonth name)).2, d⟩ := by
  unfold resolve_calendar_date_fixed
  rw [dateValid_false_of_over y (parsedMonth name) d hover]
  simp [hnext]

theorem c1_resolver_rollover_witness :
    resolve_calendar_date_fixed "April" 2024 31 = some ⟨2024, 5, 31⟩ := by
  have h := c1_resolver_rollover "April" 2024 31 (by decide) (by decide)
  simpa using h

/-- **C5.**  The resolver parses the month name, defaulting to January on
parse failure; returns `(year, month, day)` when that construction is valid;
otherwise retries `(month+1, day)` — with the year incremented exactly when
the month was December, per `nextMonth` — and returns nothing when both
attempts fail; in particular December 32, 2024 resolves to nothing. -/
theorem c5_resolver_spec :
    (∀ name y d, monthFromName name = none →
      resolve_calendar_date_fixed name y d =
        resolve_calendar_date_fixed "January" y d) ∧
    (∀ y, nextMonth y 12 = (y + 1, 1)) ∧
    (∀ y m, m ≠ 12 → nextMonth y m = (y, m + 1)) ∧
    (∀ name y d, dateValid y (parsedMonth name) d = true →
      resolve_calendar_date_fixed name y d = some ⟨y, parsedMonth name, d⟩) ∧
    (∀ name y d, dateValid y (parsedMonth name) d = false →
      dateValid (nextMonth y (parsedMonth name)).1
        (nextMonth y (parsedMonth name)).2 d = true →
      resolve_calendar_date_fixed name y d =
        some ⟨(nextMonth y (parsedMonth name)).1,
          (nextMonth y (parsedMonth name)).2, d⟩) ∧
    (∀ name y d, dateValid y (parsedMonth name) d = false →
      dateValid (nextMonth y (parsedMonth name)).1
        (nextMonth y (parsedMonth name)).2 d = false →
      resolve_calendar_date_fixed name y d = none) ∧
    resolve_calendar_date_fixed "December" 2024 32 = none := by
  refine ⟨?_, fun y => rfl, ?_, ?_, ?_, ?_, by decide⟩
  · intro name y d h
    have hp : parsedMonth name = 1 := by simp [parsedMonth, h]
    have hp2 : parsedMonth "January" = 1 := by decide
    simp only [resolve_calendar_date_fixed, hp, hp2]
  · intro y m h
    simp [nextMonth, h]
  · intro name y d h
    simp [resolve_calendar_date_fixed, h]
  · intro name y d h1 h2
    simp [resolve_calendar_date_fixed, h1, h2]
  · intro name y d h1 h2
    simp [resolve_calendar_date_fixed, h1, h2]

theorem c5_resolver_spec_witness :
    resolve_calendar_date_fixed "Riftbound" 2024 15 =
      resolve_calendar_date_fixed "January" 2024 15 ∧
    resolve_calendar_date_fixed "March" 2024 10 = some ⟨2024, 3, 10⟩ ∧
    resolve_calendar_date_fixed "November" 2025 31 = some ⟨2025, 12, 31⟩ ∧
    resolve_calendar_date_fixed "December" 2024 32 = none := by
  refine ⟨c5_resolver_spec.1 "Riftbound" 2024 15 (by decide), ?_, ?_,
    c5_resolver_spec.2.2.2.2.2.2⟩
  · have h := c5_resolver_spec.2.2.2.1 "March" 2024 10 (by decide)
    simpa using h
  · have h := c5_resolver_spec.2.2.2.2.1 "November" 2025 31 (by decide)
      (by decide)
    simpa using h

/-- **C10, counterexample.**  The two resolver variants are not
extensionally equal: at `("December", 9999, 32)` the bounds-checking version
of `riftbound_watcher.py` consults `calendar.monthrange(10000, 1)`, which
raises (an uncaught `ValueError`), while the exception-driven version of
`riftbound_watcher_fixed.py` catches the construction failure and returns
nothing. -/
theorem c10_resolvers_equal_cex :
    resolve_calendar_date "December" 9999 32 = .error () ∧
    resolve_calendar_date_fixed "December" 9999 32 = none ∧
    resolve_calendar_date "December" 9999 32 ≠
      .ok (resolve_calendar_date_fixed "December" 9999 32) :=
  ⟨rfl, by decide, fun h => Except.noConfusion h⟩

/-- **C10, amended.**  For every month name and day, and every year in
1..9998 (so that neither `calendar.monthrange` call of the bounds-checking
version can be out of the `datetime` year range), the two resolver variants
agree: the bounds-checking version returns normally with exactly the
optional date the exception-driven version produces. -/
theorem c10_resolvers_agree (name : String) (y d : Nat)
    (h1 : 1 ≤ y) (h2 : y ≤ 9998) :
    resolve_calendar_date name y d =
      .ok (resolve_calendar_date_fixed name y d) := by
  obtain ⟨hm1, hm2⟩ := parsedMonth_bounds name
  obtain ⟨hn1, hn2, hn3, hn4⟩ := nextMonth_bounds y (parsedMonth name) hm1 hm2
  have hok1 : monthrangeOk y (parsedMonth name) := ⟨⟨hm1, hm2⟩, h1, by omega⟩
  have hok2 : monthrangeOk (nextMonth y (parsedMonth name)).1
      (nextMonth y (parsedMonth name)).2 := ⟨⟨hn3, hn4⟩, by omega, by omega⟩
  have hv1 := dateValid_iff y (parsedMonth name) d ⟨h1, by omega⟩ ⟨hm1, hm2⟩
  have hv2 := dateValid_iff (nextMonth y (parsedMonth name)).1
      (nextMonth y (parsedMonth name)).2 d ⟨by omega, by omega⟩ ⟨hn3, hn4⟩
  unfold resolve_calendar_date resolve_calendar_date_fixed
  rw [if_neg (not_not_intro hok1), if_neg (not_not_intro hok2)]
  by_cases hA : 1 ≤ d ∧ d ≤ monthLength y (parsedMonth name)
  · rw [if_pos hA, if_pos (hv1.mpr hA)]
  · rw [if_neg hA, if_neg (fun hc => hA (hv1.mp hc))]
    by_cases hB : 1 ≤ d ∧ d ≤ monthLength (nextMonth y (parsedMonth name)).1
        (nextMonth y (parsedMonth name)).2
    · rw [if_pos hB, if_pos (hv2.mpr hB)]
    · rw [if_neg hB, if_neg (fun hc => hB (hv2.mp hc))]

theorem c10_resolvers_agree_witness :
    resolve_calendar_date "February" 2023 30 =
      .ok (resolve_calendar_date_fixed "February" 2023 30) :=
  c10_resolvers_agree "February" 2023 30 (by decide) (by decide)

/-- **C2, counterexample.**  Loading the ledger is *not* total: `json.load`
is called outside any `try` in `load_state` (both source files), so a file
whose JSON is unparseable raises instead of yielding the empty set. -/
theorem c2_ledger_load_total_cex :
    load_state .unparseable = .error () ∧
    load_state .unparseable ≠ .ok [] :=
  ⟨rfl, fun h => Except.noConfusion h⟩

/-- **C2, amended.**  A missing ledger file, or a file whose JSON parses to
a non-array value, loads as the empty set of identifiers; a file whose JSON
is unparseable instead raises out of `load_state`. -/
theorem c2_ledger_load (j : Json) (h : ∀ xs, j ≠ .jarr xs) :
    load_state .missing = .ok [] ∧ load_state (.parsed j) = .ok [] := by
  refine ⟨rfl, ?_⟩
  cases j
  case jarr xs => exact absurd rfl (h xs)
  all_goals rfl

theorem c2_ledger_load_witness :
    load_state .missing = .ok [] ∧ load_state (.parsed (.jnum 3)) = .ok [] :=
  c2_ledger_load (.jnum 3) (fun _ h => Json.noConfusion h)

/-- **C4.**  Novelty-diff idempotence: against a fixed event universe, a
first run from the empty ledger reports every event as new, and a second run
against the ledger persisted by the first reports none, because surfacing an
event inserts both its content id and its slot id and `isNew` requires both
to be absent. -/
theorem c4_ledger_idempotence (events : List RBEvent) :
    (runNovelty [] events).1 = events ∧
    (runNovelty (runNovelty [] events).2 events).1 = [] := by
  have hfirst : (runNovelty [] events).1 = events := by
    simp [runNovelty, isNew]
  refine ⟨hfirst, ?_⟩
  have hmem : ∀ e ∈ events, e.uid ∈ (runNovelty [] events).2 := by
    intro e he
    show e.uid ∈ recordIds [] (events.filter (fun e => isNew [] e))
    have : events.filter (fun e => isNew [] e) = events := hfirst
    rw [this]
    simp only [recordIds, List.nil_append]
    exact List.mem_flatMap.mpr ⟨e, he, by simp⟩
  show List.filter _ events = []
  rw [List.filter_eq_nil_iff]
  intro e he
  simp [isNew, hmem e he]

theorem c4_ledger_idempotence_witness :
    (runNovelty [] [wEventA]).1 = [wEventA] ∧
    (runNovelty (runNovelty [] [wEventA]).2 [wEventA]).1 = [] :=
  c4_ledger_idempotence [wEventA]

/-- **C8.**  A record whose title differs from a previously-recorded event
but whose `(store, start-minute)` slot coincides with it is classified as
not new: its title-agnostic slot id is already in the ledger. -/
theorem c8_slot_reuse_not_new (seen : Ledger) (e1 e2 : RBEvent)
    (hst : e2.store = e1.store)
    (hmin : roundMinute e2.start = roundMinute e1.start)
    (_htitle : e2.title ≠ e1.title)
    (hnew : isNew seen e1 = true) :
    isNew (runNovelty seen [e1]).2 e2 = false := by
  have hsid : e2.stable_id = e1.stable_id := by
    simp [RBEvent.stable_id, hst, hmin]
  have hmem : e1.stable_id ∈ (runNovelty seen [e1]).2 := by
    simp [runNovelty, recordIds, hnew]
  simp [isNew, hsid, hmem]

theorem c8_slot_reuse_not_new_witness :
    isNew (runNovelty [] [wEventA]).2 wEventB = false :=
  c8_slot_reuse_not_new [] wEventA wEventB rfl rfl (by decide) (by decide)

/-- **C3, counterexample.**  Adapter-produced records can violate
`end >= start`: when `parse_time_range` yields an explicit end time that is
an earlier wall-clock minute than the start (e.g. the text "23:00 - 01:00"),
the Dark Sphere adapter places both on the same date, so the record's end
precedes its start. -/
theorem c3_end_ge_start_cex :
    endGeStart (darksphere_record "Riftbound Night"
      "https://www.darksphere.co.uk/e" ⟨2025, 11, 7⟩
      (some (23 * 60)) (some 60)) = false := by decide

/-- **C3, amended.**  `end >= start` holds for every adapter-produced record
whose explicitly parsed end minute (if any) is not earlier in the day than
its start minute; in particular it holds whenever the end comes from the
default-duration rule (`guess_end`, or the 19:00-23:00 catalog defaults). -/
theorem c3_end_ge_start_amended :
    (∀ t u d sT eT, (∀ x, eT = some x → sT.getD 1140 ≤ x) →
      endGeStart (darksphere_record t u d sT eT) = true) ∧
    (∀ t u st d sT eT, sT.getD 1140 ≤ eT.getD 1380 →
      endGeStart (shopify_record t u st d sT eT) = true) ∧
    (∀ t u d sT, endGeStart (zombie_record t u d sT) = true) ∧
    (∀ t u d sT eT, (∀ x, eT = some x → sT.getD 780 ≤ x) →
      endGeStart (europa_record t u d sT eT) = true) := by
  refine ⟨?_, ?_, ?_, ?_⟩
  · intro t u d sT eT h
    cases eT with
    | none =>
      simp [darksphere_record, endGeStart, guess_end, londonify, datetimeAt]
    | some x =>
      have hx := h x rfl
      simp [darksphere_record, endGeStart, londonify, datetimeAt]
      omega
  · intro t u st d sT eT h
    simp [shopify_record, endGeStart, londonify, datetimeAt]
    omega
  · intro t u d sT
    simp [zombie_record, endGeStart, guess_end, londonify, datetimeAt]
  · intro t u d sT eT h
    cases eT with
    | none =>
      simp [europa_record, endGeStart, guess_end, londonify, datetimeAt]
    | some x =>
      have hx := h x rfl
      simp [europa_record, endGeStart, londonify, datetimeAt]
      omega

theorem c3_end_ge_start_amended_witness :
    endGeStart (darksphere_record "Riftbound Night"
      "https://www.darksphere.co.uk/e" ⟨2025, 11, 7⟩
      (some (19 * 60)) (some (22 * 60))) = true :=
  c3_end_ge_start_amended.1 "Riftbound Night"
    "https://www.darksphere.co.uk/e" ⟨2025, 11, 7⟩
    (some (19 * 60)) (some (22 * 60))
    (fun x hx => by injection hx with h2; subst h2; decide)

/-- **C6.**  Two candidates at the same `(store, start-minute)` slot whose
canonical titles both contain the keyword collapse to exactly one record:
the one whose `(has "event.php" URL marker, title length)` score is higher
in the lexicographic order, the first-seen winning ties (Python's
`a if score(a) >= score(b) else b`). -/
theorem c6_dedup_same_slot_keyword (a b : RBEvent)
    (hst : b.store = a.store)
    (hmin : roundMinute b.start = roundMinute a.start)
    (ha : titleHasKeyword a = true) (hb : titleHasKeyword b = true) :
    dedup_slot_conflicts [a, b] =
      [if pairGe (eventScore a) (eventScore b) then a else b] := by
  have h1 : dedupStep [] a =
      [(DKey.slot a.store (roundMinute a.start), a)] := rfl
  have h2 : dedupStep [(DKey.slot a.store (roundMinute a.start), a)] b =
      [(DKey.slot a.store (roundMinute a.start), prefer_event a b)] := by
    simp only [dedupStep, hst, hmin, alistGet, alistSet, if_pos,
      ha, hb, Bool.and_self, if_true]
  show (([a, b].foldl dedupStep []).map Prod.snd) = _
  rw [List.foldl_cons, List.foldl_cons, List.foldl_nil, h1, h2]
  rfl

theorem c6_dedup_same_slot_keyword_witness :
    dedup_slot_conflicts [wEventD, wEventE] = [wEventE] := by
  have h := c6_dedup_same_slot_keyword wEventD wEventE rfl rfl
    (by decide) (by decide)
  rw [h]
  decide

/-- **C7.**  Two candidates at the same `(store, start-minute)` slot whose
canonical titles differ, exactly one of them containing the keyword, are
both retained: the later one is re-keyed under
`(store, minute, canonical title)`. -/
theorem c7_dedup_same_slot_distinct (a b : RBEvent)
    (hst : b.store = a.store)
    (hmin : roundMinute b.start = roundMinute a.start)
    (_hdiff : canonical_title a.title ≠ canonical_title b.title)
    (hkw : titleHasKeyword a ≠ titleHasKeyword b) :
    dedup_slot_conflicts [a, b] = [a, b] := by
  have hcond : (titleHasKeyword b && titleHasKeyword a) = false := by
    cases hA : titleHasKeyword a <;> cases hB : titleHasKeyword b <;>
      simp_all
  have h1 : dedupStep [] a =
      [(DKey.slot a.store (roundMinute a.start), a)] := rfl
  have h2 : dedupStep [(DKey.slot a.store (roundMinute a.start), a)] b =
      [(DKey.slot a.store (roundMinute a.start), a),
       (DKey.titled b.store (roundMinute b.start) (canonical_title b.title),
        b)] := by
    simp only [dedupStep, hst, hmin, alistGet, alistSet, if_pos, hcond,
      Bool.false_eq_true, if_false]
    simp [hst, hmin]
  show (([a, b].foldl dedupStep []).map Prod.snd) = _
  rw [List.foldl_cons, List.foldl_cons, List.foldl_nil, h1, h2]
  rfl

theorem c7_dedup_same_slot_distinct_witness :
    dedup_slot_conflicts [wEventA, wEventC] = [wEventA, wEventC] := by
  have h := c7_dedup_same_slot_distinct wEventA wEventC rfl rfl
    (by decide) (by decide)
  exact h

/-- **C9.**  Every record any adapter constructs carries a timezone-aware
start (`londonify` is applied at the adapter boundary), and every record in
the aggregator's deduplicated, time-windowed output has an aware start with
`start >= run_time - 1 day`. -/
theorem c9_aggregator_window :
    (∀ t u d sT eT, (darksphere_record t u d sT eT).start.aware = true) ∧
    (∀ t u st d sT eT, (shopify_record t u st d sT eT).start.aware = true) ∧
    (∀ t u d sT, (zombie_record t u d sT).start.aware = true) ∧
    (∀ t u d sT eT, (europa_record t u d sT eT).start.aware = true) ∧
    (∀ (now : DateTime) (scraped : List RBEvent),
      (∀ e ∈ scraped, e.start.aware = true) →
      ∀ e ∈ find_events now scraped,
        e.start.aware = true ∧ now.wall - 86400 ≤ e.start.wall) := by
  refine ⟨fun t u d sT eT => rfl, fun t u st d sT eT => rfl,
    fun t u d sT => rfl, fun t u d sT eT => rfl, ?_⟩
  intro now scraped haware e he
  unfold find_events at he
  refine dedup_preserves
    (fun e2 => e2.start.aware = true ∧ now.wall - 86400 ≤ e2.start.wall)
    _ ?_ e he
  intro e2 he2
  rw [List.mem_filter] at he2
  exact ⟨haware e2 he2.1, by simpa using he2.2⟩

theorem c9_aggregator_window_witness :
    wEventA.start.aware = true ∧ wNow.wall - 86400 ≤ wEventA.start.wall :=
  c9_aggregator_window.2.2.2.2 wNow [wEventA] (by decide) wEventA
    (by decide)

end Riftbound
